import Mathlib

/-!
# Verification of the LLM data-pipeline retry core

Shallow embedding of the code-extraction, capturing-execution, outcome
classification, auto-repair and retry-loop logic of
`src/Core_Pipeline_Files/mainV3.py`,
`src/Core_Pipeline_Files/Utilities/code_exec.py`,
`src/Core_Pipeline_Files/Utilities/re.py` and
`src/Core_Pipeline_Files/ollama_client.py`.

Strings are modelled as `List Char` internally (with `String` wrappers at
the API boundary).  Python's `exec` of generated code and the network call
to the model are external effects and are modelled as explicit oracles
passed into the embedded functions; everything the repository itself
computes (string scanning, splitting, classification, the loop control
flow) is translated directly from the source.
-/

namespace Pipeline

/-- ASCII whitespace, the characters Python's `str.strip`, `str.split()` and
the regex class `\s` treat as whitespace (the inputs in this development are
ASCII, so the Unicode extras of Python's definitions never fire). -/
def isWs (c : Char) : Bool :=
  c = ' ' || c = '\t' || c = '\n' || c = '\r' || c = '\x0b' || c = '\x0c'

/-- Regex word character `\w` (ASCII fragment): letters, digits, underscore. -/
def isWordChar (c : Char) : Bool :=
  (('a' ≤ c && c ≤ 'z') || ('A' ≤ c && c ≤ 'Z') || ('0' ≤ c && c ≤ '9') || c = '_')

/-- Python's `needle in hay` substring test: some suffix of `hay` starts
with `needle`. -/
def hasSub (needle : List Char) : List Char → Bool
  | [] => needle.isPrefixOf []
  | c :: t => needle.isPrefixOf (c :: t) || hasSub needle t

/-- `needle in hay` at the `String` level. -/
def strHasSub (hay needle : String) : Bool :=
  hasSub needle.toList hay.toList

/-- Python's `str.strip()`: drop leading and trailing whitespace. -/
def pyStrip (l : List Char) : List Char :=
  ((l.dropWhile isWs).reverse.dropWhile isWs).reverse

/-- `str.strip()` on `String`. -/
def pyStripStr (s : String) : String :=
  ⟨pyStrip s.toList⟩

/-- Python's `str.split('\n')`: the list of lines, where a trailing newline
yields a final empty line and the empty string yields `[""]`. -/
def splitNl : List Char → List (List Char)
  | [] => [[]]
  | c :: t =>
    if c = '\n' then [] :: splitNl t
    else
      match splitNl t with
      | [] => [[c]]
      | l :: ls => (c :: l) :: ls

/-! ## Outcome classification (`mainV3.py`, lines 100–116)

The source computes a boolean `has_error`; the specification reads the same
logic as a three-valued classifier (Success / WarningOnlySuccess / Failure),
folded into the orchestrator.  Both views are defined here from the same
indicator tables. -/

/-- The failure-indicator substrings of `mainV3.py` lines 101–105. -/
def error_indicators : List String :=
  ["Error:", "Exception:", "Traceback", "NameError", "TypeError",
   "ValueError", "FileNotFoundError", "ImportError", "KeyError",
   "AttributeError", "SyntaxError", "ModuleNotFoundError"]

/-- `any(indicator in output for indicator in error_indicators)`
(`mainV3.py` line 107), the raw whole-output scan. -/
def has_error_raw (output : String) : Bool :=
  error_indicators.any (fun ind => hasSub ind.toList output.toList)

/-- Whether a single line contains some failure indicator. -/
def lineHasIndicator (l : List Char) : Bool :=
  error_indicators.any (fun ind => hasSub ind.toList l)

/-- `[l for l in output.split('\n') if any(e in l for e in error_indicators)]`
(`mainV3.py` lines 111–112). -/
def error_lines (output : String) : List (List Char) :=
  (splitNl output.toList).filter lineHasIndicator

/-- `all('Warning' in l or 'FutureWarning' in l for l in error_lines)`
(`mainV3.py` line 113). -/
def warning_only (output : String) : Bool :=
  (error_lines output).all
    (fun l => hasSub "Warning".toList l || hasSub "FutureWarning".toList l)

/-- The final error flag of `mainV3.py` lines 107–115: an indicator occurs
and the indicator-bearing lines are not all warning chatter. -/
def has_error (output : String) : Bool :=
  has_error_raw output && !warning_only output

/-- The §4.3 outcome of one execution (plus the two orchestrator-level
outcomes of the §3 data model). -/
inductive Outcome where
  | success
  | warningOnlySuccess
  | failure
  | noCodeFound
  | commError
deriving DecidableEq, Repr

/-- The §4.3 classifier, read off the `has_error` logic of `mainV3.py`
lines 107–115: no indicator anywhere is Success; indicators whose lines all
contain "Warning" are WarningOnlySuccess; anything else is Failure. -/
def classify (output : String) : Outcome :=
  if !has_error_raw output then .success
  else if warning_only output then .warningOnlySuccess
  else .failure

/-! ## Lemmas about the substring scan and line splitting -/

theorem hasSub_spec (n : List Char) (h : List Char) :
    hasSub n h = true ↔ n <:+: h := by
  induction h with
  | nil =>
    simp only [hasSub]
    rw [ List.isPrefixOf_iff_prefix]
    constructor
    · intro hp
      exact hp.isInfix
    · rintro ⟨s, t, hst⟩
      have hs : s = [] := by
        cases s with
        | nil => rfl
        | cons a s2 => simp at hst
      subst hs
      have ht : t = [] := by
        cases t with
        | nil => rfl
        | cons a t2 => simp at hst
      subst ht
      simp at hst
      simp [hst]
  | cons c t ih =>
    simp only [hasSub, Bool.or_eq_true, ih]
    rw [ List.isPrefixOf_iff_prefix]
    constructor
    · rintro (hp | hi)
      · exact hp.isInfix
      · exact hi.trans (List.suffix_cons c t).isInfix
    · rintro ⟨s, t2, hst⟩
      cases s with
      | nil =>
        left
        exact ⟨t2, by simpa using hst⟩
      | cons a s2 =>
        right
        simp only [List.cons_append] at hst
        injection hst with h1 h2
        exact ⟨s2, t2, h2⟩

theorem splitNl_ne_nil (l : List Char) : splitNl l ≠ [] := by
  cases l with
  | nil => simp [splitNl]
  | cons c t =>
    simp only [splitNl]
    split
    · simp
    · split <;> simp

/-- Every line produced by `splitNl` is a contiguous segment of the input,
and the first line is an initial segment. -/
theorem splitNl_segments (l : List Char) :
    (∀ x ∈ splitNl l, x <:+: l) ∧ (∀ h tl, splitNl l = h :: tl → h <+: l) := by
  induction l with
  | nil =>
    constructor
    · intro x hx
      simp only [splitNl, List.mem_singleton] at hx
      simp [hx]
    · intro h tl heq
      simp only [splitNl] at heq
      injection heq with h1 h2
      simp [← h1]
  | cons c t ih =>
    by_cases hc : c = '\n'
    · subst hc
      simp only [splitNl, if_pos rfl]
      constructor
      · intro x hx
        rcases List.mem_cons.mp hx with h | h
        · simp [h]
        · exact (ih.1 x h).trans (List.suffix_cons _ _).isInfix
      · intro h tl heq
        injection heq with h1 h2
        simp [← h1]
    · rcases hst : splitNl t with _ | ⟨h0, tl0⟩
      · exact absurd hst (splitNl_ne_nil t)
      · have hpre : h0 <+: t := ih.2 h0 tl0 hst
        have hrest : ∀ x ∈ tl0, x <:+: t := by
          intro x hx
          exact ih.1 x (by rw [hst]; exact List.mem_cons_of_mem _ hx)
        simp only [splitNl, if_neg hc, hst]
        constructor
        · intro x hx
          rcases List.mem_cons.mp hx with h | h
          · subst h
            exact (List.cons_prefix_cons.mpr ⟨rfl, hpre⟩).isInfix
          · exact (hrest x h).trans (List.suffix_cons _ _).isInfix
        · intro h tl heq
          injection heq with h1 h2
          rw [← h1]
          exact List.cons_prefix_cons.mpr ⟨rfl, hpre⟩

theorem mem_error_lines (output : String) (l : List Char) :
    l ∈ error_lines output ↔
      l ∈ splitNl output.toList ∧ lineHasIndicator l = true := by
  simp [error_lines, List.mem_filter]

/-- A line-level indicator hit implies the whole-output scan fires: any
indicator is newline-free, so finding it inside a line finds it in the
output. -/
theorem raw_of_line (output : String) (l : List Char)
    (hmem : l ∈ splitNl output.toList) (hind : lineHasIndicator l = true) :
    has_error_raw output = true := by
  rcases List.any_eq_true.mp hind with ⟨ind, hindmem, hsub⟩
  have h1 : ind.toList <:+: l := (hasSub_spec _ _).mp hsub
  have h2 : l <:+: output.toList := (splitNl_segments _).1 l hmem
  exact List.any_eq_true.mpr ⟨ind, hindmem, (hasSub_spec _ _).mpr (h1.trans h2)⟩

/-- `"FutureWarning" in l` implies `"Warning" in l`, so the source's
disjunction on line 113 collapses to the "Warning" test. -/
theorem warning_of_future (l : List Char)
    (h : hasSub "FutureWarning".toList l = true) :
    hasSub "Warning".toList l = true := by
  have h1 : hasSub "Warning".toList "FutureWarning".toList = true := by decide
  exact (hasSub_spec _ _).mpr
    (((hasSub_spec _ _).mp h1).trans ((hasSub_spec _ _).mp h))

theorem warning_only_iff (output : String) :
    warning_only output = true ↔
      ∀ l ∈ error_lines output, hasSub "Warning".toList l = true := by
  simp only [warning_only, List.all_eq_true]
  constructor
  · intro h l hl
    have hor := h l hl
    rw [Bool.or_eq_true] at hor
    rcases hor with hw | hf
    · exact hw
    · exact warning_of_future l hf
  · intro h l hl
    rw [Bool.or_eq_true]
    exact Or.inl (h l hl)

/-- C4: on every output with at least one indicator-bearing line, the
classifier answers WarningOnlySuccess exactly when every indicator-bearing
line also contains "Warning", and Failure exactly when some indicator-bearing
line lacks "Warning"; in particular "FutureWarning: x is deprecated" is not
classified Failure, while a Traceback followed by a ZeroDivisionError line
is. -/
theorem classify_warning_filter (output : String)
    (h : ∃ l ∈ splitNl output.toList, lineHasIndicator l = true) :
    (classify output = .warningOnlySuccess ↔
      ∀ l ∈ splitNl output.toList, lineHasIndicator l = true →
        hasSub "Warning".toList l = true) ∧
    (classify output = .failure ↔
      ∃ l ∈ splitNl output.toList, lineHasIndicator l = true ∧
        hasSub "Warning".toList l = false) ∧
    classify "FutureWarning: x is deprecated" ≠ .failure ∧
    classify "Traceback (most recent call last):\nZeroDivisionError: division by zero"
      = .failure := by
  rcases h with ⟨l0, hl0mem, hl0ind⟩
  have hraw : has_error_raw output = true := raw_of_line output l0 hl0mem hl0ind
  have hclassify : classify output =
      if warning_only output then Outcome.warningOnlySuccess else Outcome.failure := by
    simp [classify, hraw]
  refine ⟨?_, ?_, by decide, by decide⟩
  · cases hw : warning_only output with
    | true =>
      rw [hclassify, if_pos hw]
      simp only [true_iff]
      intro l hmem hind
      exact (warning_only_iff output).mp hw l ((mem_error_lines output l).mpr ⟨hmem, hind⟩)
    | false =>
      rw [hclassify, if_neg (by simp [hw])]
      constructor
      · intro hcontra
        exact absurd hcontra (by simp)
      · intro hall
        exfalso
        have : warning_only output = true := by
          apply (warning_only_iff output).mpr
          intro l hl
          rcases (mem_error_lines output l).mp hl with ⟨hmem, hind⟩
          exact hall l hmem hind
        rw [hw] at this
        exact absurd this (by simp)
  · cases hw : warning_only output with
    | true =>
      rw [hclassify, if_pos hw]
      constructor
      · intro hcontra
        exact absurd hcontra (by simp)
      · rintro ⟨l, hmem, hind, hnoW⟩
        have := (warning_only_iff output).mp hw l ((mem_error_lines output l).mpr ⟨hmem, hind⟩)
        rw [hnoW] at this
        exact absurd this (by simp)
    | false =>
      rw [hclassify, if_neg (by simp [hw])]
      simp only [true_iff]
      have hex : ∃ x ∈ error_lines output,
          hasSub "Warning".toList x = false ∧
            hasSub "FutureWarning".toList x = false := by
        simpa [warning_only] using hw
      rcases hex with ⟨l, hl, hWf, _⟩
      rcases (mem_error_lines output l).mp hl with ⟨hmem, hind⟩
      exact ⟨l, hmem, hind, hWf⟩

/-- C4 witness: the Traceback/ZeroDivisionError output has an
indicator-bearing line, and the theorem applies to it. -/
theorem classify_warning_filter_witness :
    classify "Traceback (most recent call last):\nZeroDivisionError: division by zero"
      = .failure :=
  (classify_warning_filter
    "Traceback (most recent call last):\nZeroDivisionError: division by zero"
    (by decide)).2.2.2

/-! ## Capturing executor (`Utilities/code_exec.py`)

Python's `exec` of a generated program is an external effect: its behaviour
on one code string — running to completion with some stdout/stderr text, or
raising an exception after writing some stdout — is passed in as an oracle.
Everything `code_exec.py` itself does (the empty-code guard, buffer
assembly, the exception formatting, the marker scan of
`execute_code_safe`) is translated from the source. -/

/-- What `exec(code, {})` does for one code string: normal completion with
the captured stdout/stderr buffer contents, or an exception carrying the
stdout written before the raise, the exception type's name, its message,
and the text `traceback.format_exc()` renders. -/
inductive ExecBehavior where
  | normal (stdout stderr : String)
  | raises (stdout excName excMsg tb : String)

/-- `"="*80`, the separator line of `code_exec.py`. -/
def sepLine : String := String.mk (List.replicate 80 '=')

/-- `execute_code_capture_output` (`code_exec.py` lines 10–63),
parametrised by the `exec` oracle. -/
def execute_code_capture_output (exec : String → ExecBehavior)
    (code : String) : String :=
  if code = "" ∨ pyStripStr code = "" then
    "Error: No code provided to execute"
  else
    match exec code with
    | .normal stdout_content stderr_content =>
      let output := stdout_content
      let output :=
        if stderr_content ≠ "" then
          (if output ≠ "" then output ++ "\n" ++ sepLine ++ "\n" else output)
            ++ "STDERR:\n" ++ stderr_content
        else output
      if output ≠ "" then output else "[No output produced]"
    | .raises stdout excName excMsg tb =>
      let error_output :=
        if stdout ≠ "" then stdout ++ "\n" ++ sepLine ++ "\n" else stdout
      error_output ++ "Error: " ++ excName ++ ": " ++ excMsg ++ "\n"
        ++ "\nTraceback:\n" ++ tb

/-- The three failure markers of `execute_code_safe`
(`code_exec.py` lines 91–93). -/
def safe_indicators : List String := ["Error:", "Exception:", "Traceback"]

/-- The structured result of `execute_code_safe` (the wall-clock
`execution_time` field is not modelled: it carries no program logic). -/
structure SafeResult where
  success : Bool
  output : String
  error : Option String
deriving DecidableEq, Repr

/-- `execute_code_safe` (`code_exec.py` lines 66–111): run the capturing
executor, then scan its output for the three markers.  The source's outer
`except` branch is unreachable because `execute_code_capture_output`
never raises. -/
def execute_code_safe (exec : String → ExecBehavior)
    (code : String) : SafeResult :=
  let output := execute_code_capture_output exec code
  let has_err := safe_indicators.any (fun ind => hasSub ind.toList output.toList)
  { success := !has_err
    output := output
    error := if has_err then some output else none }

theorem toList_app (a b : String) : (a ++ b).toList = a.toList ++ b.toList :=
  String.data_append a b

/-- Shared helper: on empty or whitespace-only code the capturing executor
returns the fixed message, for any execution oracle. -/
theorem capture_ws (exec : String → ExecBehavior) (code : String)
    (h : code = "" ∨ pyStripStr code = "") :
    execute_code_capture_output exec code = "Error: No code provided to execute" := by
  rw [execute_code_capture_output, if_pos h]

/-- C8: on the empty string and on every whitespace-only string the
capturing executor returns one fixed "no code provided" message,
independently of what executing any code would do (no execution is
attempted). -/
theorem run_empty_fixed_message (exec : String → ExecBehavior) (code : String)
    (h : code = "" ∨ pyStripStr code = "") :
    execute_code_capture_output exec code = "Error: No code provided to execute" ∧
    ∀ exec2 : String → ExecBehavior,
      execute_code_capture_output exec2 code =
        execute_code_capture_output exec code := by
  refine ⟨capture_ws exec code h, ?_⟩
  intro exec2
  rw [capture_ws exec code h, capture_ws exec2 code h]

/-- C8 witness: the three-space string is whitespace-only and gets the
fixed message under a concrete oracle. -/
theorem run_empty_fixed_message_witness :
    execute_code_capture_output (fun _ => ExecBehavior.normal "x" "") "   " =
      "Error: No code provided to execute" :=
  (run_empty_fixed_message (fun _ => ExecBehavior.normal "x" "") "   "
    (Or.inr (by decide))).1

/-- C9: the fixed no-code message itself contains the marker "Error:", so on
empty or whitespace-only code `execute_code_safe` reports `success = false`
and the classifier reports Failure — an empty program is never a successful
run. -/
theorem empty_code_never_success (exec : String → ExecBehavior) (code : String)
    (h : code = "" ∨ pyStripStr code = "") :
    hasSub "Error:".toList
        (execute_code_capture_output exec code).toList = true ∧
    (execute_code_safe exec code).success = false ∧
    classify (execute_code_capture_output exec code) = .failure := by
  have hc := capture_ws exec code h
  refine ⟨?_, ?_, ?_⟩
  · rw [hc]; decide
  · rw [execute_code_safe]; rw [hc]; decide
  · rw [hc]; decide

/-- C9 witness: the empty code string. -/
theorem empty_code_never_success_witness :
    (execute_code_safe (fun _ => ExecBehavior.normal "x" "") "").success = false :=
  (empty_code_never_success (fun _ => ExecBehavior.normal "x" "") ""
    (Or.inl rfl)).2.1

/-- C5: when execution of a non-blank program raises, the capturing
executor does not propagate the fault (it is a total function into
strings); its result starts with the stdout collected before the fault and
contains the line "Error: <kind>: <message>" and the full traceback text. -/
theorem capture_fault_reported (exec : String → ExecBehavior)
    (code stdout excName excMsg tb : String)
    (hcode : ¬(code = "" ∨ pyStripStr code = ""))
    (hexec : exec code = .raises stdout excName excMsg tb) :
    stdout.toList <+: (execute_code_capture_output exec code).toList ∧
    hasSub ("Error: " ++ excName ++ ": " ++ excMsg ++ "\n").toList
      (execute_code_capture_output exec code).toList = true ∧
    hasSub ("\nTraceback:\n" ++ tb).toList
      (execute_code_capture_output exec code).toList = true := by
  rw [execute_code_capture_output, if_neg hcode, hexec]
  by_cases hs : stdout = ""
  · subst hs
    simp only [ne_eq, not_true_eq_false, if_neg, ite_false]
    refine ⟨List.nil_prefix, ?_, ?_⟩
    · apply (hasSub_spec _ _).mpr
      refine ⟨("" : String).toList, ("\nTraceback:\n" ++ tb).toList, ?_⟩
      simp [toList_app]
    · apply (hasSub_spec _ _).mpr
      refine ⟨("" ++ "Error: " ++ excName ++ ": " ++ excMsg ++ "\n").toList, [], ?_⟩
      simp [toList_app]
  · simp only [ne_eq, hs, not_false_eq_true, if_pos, ite_true]
    refine ⟨?_, ?_, ?_⟩
    · rw [show stdout ++ "\n" ++ sepLine ++ "\n" ++ "Error: " ++ excName ++ ": "
            ++ excMsg ++ "\n" ++ "\nTraceback:\n" ++ tb
          = stdout ++ ("\n" ++ sepLine ++ "\n" ++ "Error: " ++ excName ++ ": "
            ++ excMsg ++ "\n" ++ "\nTraceback:\n" ++ tb) by
        simp [String.append_assoc]]
      rw [toList_app]
      exact List.prefix_append _ _
    · apply (hasSub_spec _ _).mpr
      refine ⟨(stdout ++ "\n" ++ sepLine ++ "\n").toList, ("\nTraceback:\n" ++ tb).toList, ?_⟩
      simp [toList_app, String.append_assoc]
    · apply (hasSub_spec _ _).mpr
      refine ⟨(stdout ++ "\n" ++ sepLine ++ "\n" ++ "Error: " ++ excName ++ ": "
          ++ excMsg ++ "\n").toList, [], ?_⟩
      simp [toList_app, String.append_assoc]

/-- C5 witness: a concrete oracle on which `print('x' + 1)` raises a
TypeError; the captured text contains the fault name and a traceback. -/
theorem capture_fault_reported_witness :
    hasSub ("Error: " ++ "TypeError" ++ ": " ++ "can only concatenate str to int" ++ "\n").toList
      (execute_code_capture_output
        (fun _ => ExecBehavior.raises "" "TypeError"
          "can only concatenate str to int" "Traceback (most recent call last): x")
        "print('x' + 1)").toList = true :=
  (capture_fault_reported
    (fun _ => ExecBehavior.raises "" "TypeError"
      "can only concatenate str to int" "Traceback (most recent call last): x")
    "print('x' + 1)" "" "TypeError" "can only concatenate str to int"
    "Traceback (most recent call last): x"
    (by decide) rfl).2.1

/-! ## C2: the `execute_code_safe` marker scan vs. the §4.3 classifier -/

/-- A concrete oracle: the program prints one warning-chatter line, so its
captured stdout is that line.  Plausible real behaviour of
`print("FutureWarning: Error: x is deprecated")`. -/
def warnChatterOracle : String → ExecBehavior :=
  fun _ => .normal "FutureWarning: Error: x is deprecated\n" ""

/-- The code string the oracle describes. -/
def warnChatterCode : String := "print(\"FutureWarning: Error: x is deprecated\")"

/-- C2 counterexample: on this run the wrapper's marker scan says
`success = false` (the output contains "Error:"), while the §4.3 classifier
reclassifies the same output as WarningOnlySuccess (its only
indicator-bearing line contains "Warning"), so the claimed equivalence
fails: the two disagree on this output. -/
theorem safe_success_mismatch :
    ¬(((execute_code_safe warnChatterOracle warnChatterCode).success = true) ↔
      (classify (execute_code_capture_output warnChatterOracle warnChatterCode)
          = .success ∨
       classify (execute_code_capture_output warnChatterOracle warnChatterCode)
          = .warningOnlySuccess)) := by
  decide

/-- C2 amended: the `success` field of `execute_code_safe` is true exactly
when the captured output contains none of the three markers "Error:",
"Exception:", "Traceback"; this marker scan is not the §4.3 classifier (the
counterexample shows they disagree on warning-only outputs, and they also
disagree on outputs carrying bare exception names such as "ValueError"
without any of the three markers). -/
theorem safe_success_iff_no_marker (exec : String → ExecBehavior) (code : String) :
    (execute_code_safe exec code).success = true ↔
      ∀ ind ∈ safe_indicators,
        hasSub ind.toList
          (execute_code_capture_output exec code).toList = false := by
  rw [execute_code_safe]
  simp only [Bool.not_eq_true']
  rw [List.any_eq_false]
  constructor
  · intro h ind hmem
    have := h ind hmem
    simpa using this
  · intro h ind hmem
    simpa using h ind hmem

/-! ## Code extractor (`Utilities/re.py`)

`extract_python_code` is a cascade of four `re.search` calls and a raw-code
heuristic.  Each regex is modelled by its leftmost-match semantics: the
patterns `OPEN\s*(.*?)\s*CLOSE` (with DOTALL) match at the leftmost
occurrence of OPEN that is followed by a later occurrence of CLOSE, with
group(1) running to that first CLOSE; the `\s*` padding only shifts
whitespace at the group's edges, which the final `.strip()` erases, so the
returned value is the stripped text between the delimiters. -/

/-- Text strictly before the first occurrence of `closeD`; `none` when
`closeD` does not occur. -/
def upTo (closeD : List Char) : List Char → Option (List Char)
  | [] => none
  | c :: t =>
    if closeD.isPrefixOf (c :: t) then some []
    else (upTo closeD t).map (fun r => c :: r)

/-- Case-insensitive prefix test: `needle` (given in lower case) against
the lowercased head of the text, as re.IGNORECASE does. -/
def ciPrefMatch : List Char → List Char → Bool
  | [], _ => true
  | _ :: _, [] => false
  | a :: as, b :: bs => (a = b.toLower) && ciPrefMatch as bs

/-- The literal head of the tagged-fence pattern. -/
def pyTagChars : List Char := "```python".toList

/-- `re.search(r"```python\s*(.*?)\s*```", text, re.DOTALL | re.IGNORECASE)`
(`re.py` line 25), reduced as described above: leftmost case-insensitive
"```python" with a later "```", interior up to that fence (pre-strip). -/
def searchPyTag : List Char → Option (List Char)
  | [] => none
  | c :: t =>
    if ciPrefMatch pyTagChars (c :: t) then
      match upTo "```".toList ((c :: t).drop 9) with
      | some interior => some interior
      | none => searchPyTag t
    else searchPyTag t

/-- `re.search(r"OPEN\s*(.*?)\s*CLOSE", text, re.DOTALL)` for the generic
fence and the triple-quote fallbacks (`re.py` lines 30–42). -/
def searchDelim (openD closeD : List Char) : List Char → Option (List Char)
  | [] => none
  | c :: t =>
    if openD.isPrefixOf (c :: t) then
      match upTo closeD ((c :: t).drop openD.length) with
      | some interior => some interior
      | none => searchDelim openD closeD t
    else searchDelim openD closeD t

/-- The keywords of the raw-code heuristic (`re.py` line 45). -/
def rawCodeKws : List String := ["import", "from", "def", "class"]

/-- One attempt of `^\s*(import|from|def|class)\s+` at an anchor position:
skip whitespace, then a keyword, then at least one whitespace character. -/
def kwAfterWs (l : List Char) : Bool :=
  let r := l.dropWhile isWs
  rawCodeKws.any (fun kw =>
    kw.toList.isPrefixOf r &&
      (match r.drop kw.toList.length with
       | c :: _ => isWs c
       | [] => false))

/-- Whether some position right after a newline anchors a keyword match. -/
def anchorAfterNl : List Char → Bool
  | [] => false
  | c :: t => (c = '\n' && kwAfterWs t) || anchorAfterNl t

/-- `re.search(r'^\s*(import|from|def|class)\s+', text, re.MULTILINE)`
(`re.py` line 45): the pattern matches at the start of the text or right
after some newline. -/
def rawCodeHeur (l : List Char) : Bool :=
  kwAfterWs l || anchorAfterNl l

/-- `extract_python_code` (`re.py` lines 7–51): the five-case cascade. -/
def extract_python_code (text : String) : String :=
  if text = "" then ""
  else
    match searchPyTag text.toList with
    | some interior => ⟨pyStrip interior⟩
    | none =>
      match searchDelim "```".toList "```".toList text.toList with
      | some interior => ⟨pyStrip interior⟩
      | none =>
        match searchDelim "'''".toList "'''".toList text.toList with
        | some interior => ⟨pyStrip interior⟩
        | none =>
          match searchDelim "\"\"\"".toList "\"\"\"".toList text.toList with
          | some interior => ⟨pyStrip interior⟩
          | none =>
            if rawCodeHeur text.toList then pyStripStr text else ""

/-! ### C6: the first *tagged* block, spec side vs. code side -/

/-- Whether, after "```python", the fence's info word actually ends here:
whitespace, a backtick (immediate closing fence) or the end of the text.
When this fails the fence's tag merely *starts* with "python"
(e.g. "```pythonic"). -/
def pyTagBoundary (l : List Char) : Bool :=
  match l.drop 9 with
  | [] => true
  | c :: _ => isWs c || c = '`'

/-- Comparator following the spec's words (§4.1 step 1): this position
starts a fenced block whose tag is exactly "python", case-insensitively. -/
def specIsPyTagAt (l : List Char) : Bool :=
  ciPrefMatch pyTagChars l && pyTagBoundary l

/-- Comparator following the spec's words: the trimmed interior of the
first fenced block tagged exactly "python" (case-insensitive) that has a
closing fence. -/
def specFirstTagged : List Char → Option (List Char)
  | [] => none
  | c :: t =>
    if specIsPyTagAt (c :: t) then
      match upTo "```".toList ((c :: t).drop 9) with
      | some interior => some (pyStrip interior)
      | none => specFirstTagged t
    else specFirstTagged t

/-- Every case-insensitive occurrence of "```python" in the text is a
genuine tag boundary (no fence tag merely starting with "python"). -/
def allPyOccGenuine : List Char → Bool
  | [] => true
  | c :: t =>
    (!(ciPrefMatch pyTagChars (c :: t)) || pyTagBoundary (c :: t))
      && allPyOccGenuine t

/-- On texts whose "```python" occurrences are all genuine tags, the
source's regex scan and the spec's first-tagged-block notion coincide. -/
theorem searchPyTag_spec_agree (l : List Char)
    (hgen : allPyOccGenuine l = true) :
    specFirstTagged l = (searchPyTag l).map (fun i => pyStrip i) := by
  induction l with
  | nil => rfl
  | cons c t ih =>
    rw [allPyOccGenuine, Bool.and_eq_true] at hgen
    rcases hgen with ⟨hhead, htail⟩
    by_cases hci : ciPrefMatch pyTagChars (c :: t) = true
    · have hbd : pyTagBoundary (c :: t) = true := by
        rw [hci] at hhead
        simpa using hhead
      rw [specFirstTagged, searchPyTag]
      rw [if_pos hci, if_pos (by rw [specIsPyTagAt, hci, hbd]; rfl)]
      cases hup : upTo "```".toList ((c :: t).drop 9) with
      | some interior => simp
      | none => exact ih htail
    · have hci2 : ciPrefMatch pyTagChars (c :: t) = false :=
        Bool.not_eq_true _ ▸ Bool.of_not_eq_true hci
      rw [specFirstTagged, searchPyTag]
      rw [if_neg (by simp [specIsPyTagAt, hci2]), if_neg (by simp [hci2])]
      exact ih htail

/-- C6 counterexample: this text contains a python-tagged fenced block
(its trimmed interior is "B"), but a preceding fence tagged "pythonic"
makes the regex fire early, so `extract_python_code` returns "ic\nA"
instead of the first tagged block's interior. -/
theorem extract_first_tagged_cex :
    extract_python_code "```pythonic\nA\n``` ```python\nB\n```" = "ic\nA" ∧
    specFirstTagged ("```pythonic\nA\n``` ```python\nB\n```").toList
      = some "B".toList ∧
    ("ic\nA" : String) ≠ "B" := by
  refine ⟨by decide, by decide, by decide⟩

/-- C6 amended: for every text that contains a fenced block tagged as
python (case-insensitive) *and* in which no occurrence of "```python" is
part of a longer tag, `extract_python_code` returns exactly the trimmed
interior of the first such tagged block, regardless of surrounding text. -/
theorem extract_first_tagged (text : String) (interior : List Char)
    (hgen : allPyOccGenuine text.toList = true)
    (hfound : specFirstTagged text.toList = some interior) :
    extract_python_code text = ⟨interior⟩ := by
  by_cases htxt : text = ""
  · subst htxt
    simp [specFirstTagged] at hfound
  · rw [searchPyTag_spec_agree text.toList hgen] at hfound
    rcases Option.map_eq_some'.mp hfound with ⟨i0, hi0, hstrip⟩
    rw [extract_python_code, if_neg htxt, hi0]
    simp only [hstrip]

/-- C6 witness: a text with one genuinely tagged block surrounded by
prose. -/
theorem extract_first_tagged_witness :
    extract_python_code "x ```python\ny = 1\n``` z" = ⟨"y = 1".toList⟩ :=
  extract_first_tagged "x ```python\ny = 1\n``` z" "y = 1".toList
    (by decide) (by decide)

/-! ## Auto-repair heuristic (`mainV3.py`, lines 80–91) -/

/-- The pipeline's configured target file (`mainV3.py` line 18). -/
def FILENAME : String :=
  "/home/dent1st/SPPproject/ProjectV4/Core_Pipeline_Files/train.txt"

/-- The filename-like substrings of `mainV3.py` line 88, in source order. -/
def pathParamKws : List String := ["filename", "file", "path"]

/-- Lowercase a character list, Python's `str.lower()` on ASCII input. -/
def lowerChars (l : List Char) : List Char := l.map Char.toLower

/-- Python's `str.split(sep)` on character lists: split on every
non-overlapping leftmost occurrence of `sep`.  Structural recursion on a
fuel argument so that concrete instances evaluate in the kernel; the fuel
`l.length + 1` supplied by `pySplit` is never exhausted because every
recursive call consumes at least one character of the input. -/
def pySplitF (sep : List Char) : Nat → List Char → List (List Char)
  | 0, l => [l]
  | fuel + 1, l =>
    match l with
    | [] => [[]]
    | c :: t =>
      if sep ≠ [] ∧ sep.isPrefixOf (c :: t) then
        [] :: pySplitF sep fuel ((c :: t).drop sep.length)
      else
        match pySplitF sep fuel t with
        | [] => [[c]]
        | r :: rs => (c :: r) :: rs

/-- `str.split(sep)` (for nonempty `sep`, the only use in the source). -/
def pySplit (sep l : List Char) : List (List Char) :=
  pySplitF sep (l.length + 1) l

/-- One attempt of `re.search(r'def\s+(\w+)\s*\(([^)]*)\)', code)` at a
fixed start position: the literal "def", at least one whitespace character,
a nonempty run of word characters (the routine name), optional whitespace,
"(", the run of non-")" characters (the parameter text), ")".  All the
quantifiers are over disjoint character classes, so the regex engine's
greedy matching is deterministic here. -/
def tryDefAt : List Char → Option (List Char × List Char)
  | 'd' :: 'e' :: 'f' :: c0 :: rest0 =>
    if isWs c0 then
      let r1 := (c0 :: rest0).dropWhile isWs
      let name := r1.takeWhile isWordChar
      if name = [] then none
      else
        match (r1.dropWhile isWordChar).dropWhile isWs with
        | '(' :: r3 =>
          let ps := r3.takeWhile (fun c => c ≠ ')')
          match r3.dropWhile (fun c => c ≠ ')') with
          | ')' :: _ => some (name, ps)
          | _ => none
        | _ => none
    else none
  | _ => none

/-- The leftmost match of the def-signature regex: try every start
position in order, as `re.search` does. -/
def searchDef : List Char → Option (List Char × List Char)
  | [] => none
  | c :: t =>
    match tryDefAt (c :: t) with
    | some r => some r
    | none => searchDef t

/-- The auto-fix step of `mainV3.py` lines 80–91.  `none` models the
uncaught IndexError of `code.split(f"def {func_name}")[1]` when
`"def " + func_name` does not occur in the code (reachable only when the
regex matched a def written with other whitespace, e.g. `"def\tg"`). -/
def auto_fix_code (code : String) : Option String :=
  if hasSub "def ".toList code.toList = true then
    match searchDef code.toList with
    | none => some code
    | some (func_name, params) =>
      match (pySplit ("def ".toList ++ func_name) code.toList).get? 1 with
      | none => none
      | some seg1 =>
        if hasSub (func_name ++ "(".toList) seg1 = false then
          if pyStrip params ≠ [] ∧
              pathParamKws.any
                (fun p => hasSub p.toList (lowerChars (pyStrip params))) = true then
            some (code ++ "\n" ++ ⟨func_name⟩ ++ "('" ++ FILENAME ++ "')\n")
          else
            some (code ++ "\n" ++ ⟨func_name⟩ ++ "()\n")
        else some code
  else some code

/-- Comparator following the spec's words (§4.4 Repairing): the declared
parameter *names* — each comma-separated piece of the parameter text up to
its "=", stripped. -/
def paramNames (params : List Char) : List (List Char) :=
  (pySplit [','] params).map (fun p => pyStrip (p.takeWhile (fun c => c ≠ '=')))

/-- C7 counterexample: `def g(n='file'):` declares the single parameter
name "n", which contains none of "file"/"path"/"filename", so the claim
demands the no-argument call `g()`; but the source scans the whole
parameter text "n='file'", whose default value contains "file", and
appends `g('<target path>')` instead. -/
theorem auto_fix_param_name_cex :
    auto_fix_code "def g(n='file'):\n    pass"
      = some ("def g(n='file'):\n    pass" ++ "\n" ++ "g" ++ "('" ++ FILENAME ++ "')\n") ∧
    searchDef ("def g(n='file'):\n    pass").toList
      = some ("g".toList, "n='file'".toList) ∧
    paramNames "n='file'".toList = ["n".toList] ∧
    (∀ kw ∈ pathParamKws, hasSub kw.toList (lowerChars "n".toList) = false) ∧
    ("def g(n='file'):\n    pass" ++ "\n" ++ "g" ++ "('" ++ FILENAME ++ "')\n")
      ≠ ("def g(n='file'):\n    pass" ++ "\n" ++ "g" ++ "()\n") := by
  refine ⟨by decide, by decide, by decide, by decide, by decide⟩

/-- C7 amended: when the code contains "def ", the def-signature regex
yields routine name F with parameter text P, and "F(" does not occur in
the segment between the first and second occurrences of "def F" (the
source's reading of "never called after its definition"), the auto-repair
appends an invocation of F at the end of the code: with the pipeline's
target path as a single string-literal argument when the lowercased
stripped parameter *text* contains "filename", "file" or "path", and with
no arguments otherwise. -/
theorem auto_fix_appends_call (code : String) (func_name params seg1 : List Char)
    (hdef : hasSub "def ".toList code.toList = true)
    (hmatch : searchDef code.toList = some (func_name, params))
    (hseg : (pySplit ("def ".toList ++ func_name) code.toList).get? 1 = some seg1)
    (hnocall : hasSub (func_name ++ "(".toList) seg1 = false) :
    (pyStrip params ≠ [] ∧
        pathParamKws.any
          (fun p => hasSub p.toList (lowerChars (pyStrip params))) = true →
      auto_fix_code code
        = some (code ++ "\n" ++ ⟨func_name⟩ ++ "('" ++ FILENAME ++ "')\n")) ∧
    (¬(pyStrip params ≠ [] ∧
        pathParamKws.any
          (fun p => hasSub p.toList (lowerChars (pyStrip params))) = true) →
      auto_fix_code code = some (code ++ "\n" ++ ⟨func_name⟩ ++ "()\n")) := by
  constructor
  · intro hpath
    rw [auto_fix_code, if_pos hdef, hmatch]
    simp only [hseg, hnocall]
    rw [if_pos trivial, if_pos hpath]
  · intro hpath
    rw [auto_fix_code, if_pos hdef, hmatch]
    simp only [hseg, hnocall]
    rw [if_pos trivial, if_neg hpath]

/-- C7 witness: the claim's own example `def clean(path):` never called is
repaired to end with `clean('<target path>')`. -/
theorem auto_fix_appends_call_witness :
    auto_fix_code "def clean(path):\n    pass"
      = some ("def clean(path):\n    pass" ++ "\n" ++ "clean"
          ++ "('" ++ FILENAME ++ "')\n") :=
  (auto_fix_appends_call "def clean(path):\n    pass"
    "clean".toList "path".toList "(path):\n    pass".toList
    (by decide) (by decide) (by decide) (by decide)).1 (by decide)

/-! ## Retry orchestrator (`mainV3.py`, `execute_with_retry`, lines 24–147)

The loop's two external effects are oracles: the chat call (stateful in the
real client, so indexed by how many calls were made before, and handed the
current prompt) and the `exec` behaviour feeding the capturing executor.
Besides the source's `(success, code, output)` return value the embedding
also returns the list of per-iteration attempt records (§3 data model) —
ghost bookkeeping used only to state the invariants, assembled from the
very values each iteration computes. -/

/-- The outcome of one `client.chat(prompt)` call: a reply, or the string
rendering of the exception the client raised. -/
inductive ChatResult where
  | ok (reply : String)
  | err (msg : String)

/-- The loop's external collaborators. -/
structure RetryEnv where
  chat : Nat → String → ChatResult
  pyexec : String → ExecBehavior

/-- The corrective prompt for a reply without code (`mainV3.py` 65–71). -/
def no_code_prompt (initial_prompt : String) : String :=
  "Previous response didn't contain valid Python code.\n\nPlease provide ONLY a Python code block with ```python markers.\n\nOriginal task:\n"
    ++ initial_prompt ++ "\n"

/-- The corrective prompt after a failed execution (`mainV3.py` 125–143). -/
def retry_prompt (code output : String) : String :=
  "The previous code failed with this error:\n\nERROR OUTPUT:\n" ++ output
    ++ "\n\nPREVIOUS CODE:\n```python\n" ++ code
    ++ "\n```\n\nANALYZE AND FIX:\n- What caused the error?\n- Missing imports or wrong methods?\n- File path issues?\n- Logic errors?\n\nGenerate CORRECTED Python code that fixes these issues.\nReturn ONLY the Python code block.\n"

/-- One recorded attempt (§3 data model): the code the iteration worked on
(after auto-repair; empty when there was no reply or no code), the text the
iteration leaves behind as its output (the captured execution output, the
communication error's message, or the source's "No code generated"
marker), and the attempt's outcome. -/
structure AttemptRec where
  code : String
  output : String
  outcome : Outcome
deriving DecidableEq, Repr

/-- What a run of the loop returns: the source's `(success, code, output)`
triple, or an uncaught exception (the auto-fix IndexError, or line 147
reading the unbound `code`/`output` after a zero-iteration loop). -/
inductive RunResult where
  | done (success : Bool) (code output : String)
  | crash
deriving DecidableEq, Repr

/-- The body of the `for attempt in range(max_retries)` loop, by recursion
on the remaining iterations.  `idx` counts the chat calls already made,
`prompt` is the current request text, and `last` carries the source's
`code`/`output` variables as read by line 147 (set when an iteration falls
through after a failed execution; `none` before any such iteration —
line 147 crashes on `none`).  `rem = 0` inside a branch means this is the
final iteration (`attempt == max_retries - 1`). -/
def retryAux (env : RetryEnv) (initial_prompt : String) :
    Nat → Nat → String → Option (String × String) → RunResult × List AttemptRec
  | 0, _, _, last =>
    (match last with
     | some (c, o) => .done false c o
     | none => .crash, [])
  | rem + 1, idx, prompt, last =>
    match env.chat idx prompt with
    | .err e =>
      if rem = 0 then (.done false "" e, [⟨"", e, .commError⟩])
      else
        match retryAux env initial_prompt rem (idx + 1) prompt last with
        | (r, tr) => (r, ⟨"", e, .commError⟩ :: tr)
    | .ok reply =>
      let code := extract_python_code reply
      if code = "" then
        if rem = 0 then
          (.done false "" "No code generated",
           [⟨"", "No code generated", .noCodeFound⟩])
        else
          match retryAux env initial_prompt rem (idx + 1)
              (no_code_prompt initial_prompt) last with
          | (r, tr) => (r, ⟨"", "No code generated", .noCodeFound⟩ :: tr)
      else
        match auto_fix_code code with
        | none => (.crash, [])
        | some code2 =>
          let output := execute_code_capture_output env.pyexec code2
          if has_error output = false then
            (.done true code2 output, [⟨code2, output, classify output⟩])
          else
            match retryAux env initial_prompt rem (idx + 1)
                (retry_prompt code2 output) (some (code2, output)) with
            | (r, tr) => (r, ⟨code2, output, .failure⟩ :: tr)

/-- `execute_with_retry(client, initial_prompt, stage_name, max_retries)`
(`mainV3.py` lines 24–147); `stage_name` only feeds logging and is not
modelled. -/
def execute_with_retry (env : RetryEnv) (initial_prompt : String)
    (max_retries : Nat) : RunResult × List AttemptRec :=
  retryAux env initial_prompt max_retries 0 initial_prompt none

/-- `has_error` is exactly the classifier's Failure verdict. -/
theorem has_error_iff_failure (output : String) :
    has_error output = true ↔ classify output = .failure := by
  rw [has_error, classify]
  cases hr : has_error_raw output <;> cases hw : warning_only output <;> simp

/-- Induction workhorse for the mirror invariant: every `done` result of
the loop body either mirrors the last recorded attempt, or is the base
case replaying the carried `last` values with an empty trace. -/
theorem retryAux_mirrors (env : RetryEnv) (ip : String) :
    ∀ rem idx prompt last s c o tr,
      retryAux env ip rem idx prompt last = (.done s c o, tr) →
      (∃ a : AttemptRec, tr.getLast? = some a ∧ c = a.code ∧ o = a.output) ∨
      (rem = 0 ∧ tr = [] ∧ last = some (c, o)) := by
  intro rem
  induction rem with
  | zero =>
    intro idx prompt last s c o tr hrun
    simp only [retryAux] at hrun
    cases last with
    | none => simp at hrun
    | some p =>
      rcases p with ⟨c0, o0⟩
      simp only [Prod.mk.injEq, RunResult.done.injEq] at hrun
      rcases hrun with ⟨⟨_, hc, ho⟩, htr⟩
      exact Or.inr ⟨rfl, htr.symm, by rw [← hc, ← ho]⟩
  | succ rem ih =>
    intro idx prompt last s c o tr hrun
    simp only [retryAux] at hrun
    split at hrun
    · -- communication error branch
      rename_i e henv
      split at hrun
      · -- final iteration: return (False, "", str(e))
        simp only [Prod.mk.injEq, RunResult.done.injEq] at hrun
        rcases hrun with ⟨⟨_, hc, ho⟩, htr⟩
        subst htr
        exact Or.inl ⟨⟨"", e, .commError⟩, by simp, hc.symm, ho.symm⟩
      · -- retry with the same prompt
        rename_i hrem
        rcases haux : retryAux env ip rem (idx + 1) prompt last with ⟨r, tr2⟩
        rw [haux] at hrun
        simp only [Prod.mk.injEq] at hrun
        rcases hrun with ⟨hr, htr⟩
        rcases ih (idx + 1) prompt last s c o tr2 (by rw [haux, hr]) with
          ⟨a, hlast, hc, ho⟩ | ⟨h0, _, _⟩
        · refine Or.inl ⟨a, ?_, hc, ho⟩
          subst htr
          rcases tr2 with _ | ⟨x, xs⟩
          · simp at hlast
          · rw [List.getLast?_cons_cons]
            exact hlast
        · exact absurd h0 hrem
    · -- a reply arrived
      rename_i reply henv
      split at hrun
      · -- no code extracted
        split at hrun
        · -- final iteration: return (False, "", "No code generated")
          simp only [Prod.mk.injEq, RunResult.done.injEq] at hrun
          rcases hrun with ⟨⟨_, hc, ho⟩, htr⟩
          subst htr
          exact Or.inl ⟨⟨"", "No code generated", .noCodeFound⟩, by simp, hc.symm, ho.symm⟩
        · -- retry with the corrective no-code prompt
          rename_i hrem
          rcases haux : retryAux env ip rem (idx + 1) (no_code_prompt ip) last with ⟨r, tr2⟩
          rw [haux] at hrun
          simp only [Prod.mk.injEq] at hrun
          rcases hrun with ⟨hr, htr⟩
          rcases ih (idx + 1) (no_code_prompt ip) last s c o tr2 (by rw [haux, hr]) with
            ⟨a, hlast, hc, ho⟩ | ⟨h0, _, _⟩
          · refine Or.inl ⟨a, ?_, hc, ho⟩
            subst htr
            rcases tr2 with _ | ⟨x, xs⟩
            · simp at hlast
            · rw [List.getLast?_cons_cons]
              exact hlast
          · exact absurd h0 hrem
      · -- code extracted; auto-fix
        split at hrun
        · -- auto-fix IndexError: crash, never a done result
          simp at hrun
        · rename_i code2 hfix
          split at hrun
          · -- execution succeeded: return (True, code, output)
            simp only [Prod.mk.injEq, RunResult.done.injEq] at hrun
            rcases hrun with ⟨⟨_, hc, ho⟩, htr⟩
            subst htr
            exact Or.inl ⟨⟨code2, execute_code_capture_output env.pyexec code2,
              classify (execute_code_capture_output env.pyexec code2)⟩,
              by simp, hc.symm, ho.symm⟩
          · -- execution failed: fall through to the next iteration
            rcases haux : retryAux env ip rem (idx + 1)
                (retry_prompt code2 (execute_code_capture_output env.pyexec code2))
                (some (code2, execute_code_capture_output env.pyexec code2)) with ⟨r, tr2⟩
            rw [haux] at hrun
            simp only [Prod.mk.injEq] at hrun
            rcases hrun with ⟨hr, htr⟩
            rcases ih (idx + 1) _ _ s c o tr2 (by rw [haux, hr]) with
              ⟨a, hlast, hc, ho⟩ | ⟨h0, htr2, hlasteq⟩
            · refine Or.inl ⟨a, ?_, hc, ho⟩
              subst htr
              rcases tr2 with _ | ⟨x, xs⟩
              · simp at hlast
              · rw [List.getLast?_cons_cons]
                exact hlast
            · subst htr2
              injection hlasteq with hpair
              refine Or.inl ⟨⟨code2, execute_code_capture_output env.pyexec code2, .failure⟩,
                by rw [← htr]; simp, ?_, ?_⟩
              · exact congrArg Prod.fst hpair.symm
              · exact congrArg Prod.snd hpair.symm

/-- C3: whenever the retry loop terminates with a `(success, code, output)`
triple — success, or exhaustion by repeated failures, communication errors
or code-less replies — the returned code and output equal the code and
output recorded for the last attempt. -/
theorem loop_final_mirrors_last_attempt (env : RetryEnv) (initial_prompt : String)
    (max_retries : Nat) (s : Bool) (c o : String) (tr : List AttemptRec)
    (hrun : execute_with_retry env initial_prompt max_retries = (.done s c o, tr)) :
    ∃ a : AttemptRec, tr.getLast? = some a ∧ c = a.code ∧ o = a.output := by
  rcases retryAux_mirrors env initial_prompt max_retries 0 initial_prompt none
      s c o tr hrun with h | ⟨_, _, hnone⟩
  · exact h
  · exact absurd hnone (by simp)

/-- A traceback as `traceback.format_exc()` would render it. -/
def demoTb : String :=
  "Traceback (most recent call last):\n  ZeroDivisionError: division by zero"

/-- A concrete environment on which every reply carries code that raises at
runtime. -/
def demoEnv : RetryEnv :=
  { chat := fun _ _ => .ok "```python\nx = 1/0\n```"
    pyexec := fun _ => .raises "" "ZeroDivisionError" "division by zero" demoTb }

/-- The output the capturing executor produces for `demoEnv`'s code. -/
def demoOut : String :=
  "Error: ZeroDivisionError: division by zero\n" ++ "\nTraceback:\n" ++ demoTb

/-- C3 witness: a two-attempt exhausted run whose result mirrors the last
recorded attempt. -/
theorem loop_final_mirrors_witness :
    ∃ a : AttemptRec,
      ([⟨"x = 1/0", demoOut, .failure⟩, ⟨"x = 1/0", demoOut, .failure⟩]
          : List AttemptRec).getLast? = some a ∧
      "x = 1/0" = a.code ∧ demoOut = a.output :=
  loop_final_mirrors_last_attempt demoEnv "inspect this file" 2 false "x = 1/0" demoOut
    [⟨"x = 1/0", demoOut, .failure⟩, ⟨"x = 1/0", demoOut, .failure⟩] (by decide)

/-- One attempt doomed to fail at the execution stage whatever the current
prompt is: the chat call answers, code is extracted and auto-repaired, and
the captured execution output classifies as Failure. -/
def attemptFails (env : RetryEnv) (k : Nat) : Prop :=
  ∀ p : String, ∃ reply code2 : String,
    env.chat k p = .ok reply ∧
    extract_python_code reply ≠ "" ∧
    auto_fix_code (extract_python_code reply) = some code2 ∧
    classify (execute_code_capture_output env.pyexec code2) = .failure

/-- Induction workhorse for C1: if every one of the remaining attempts is
doomed to fail, the loop runs them all and returns the last one's
code/output with `success = false`. -/
theorem retryAux_all_fail (env : RetryEnv) (ip : String) :
    ∀ rem idx prompt last, 1 ≤ rem →
      (∀ k, idx ≤ k → k < idx + rem → attemptFails env k) →
      ∃ a : AttemptRec, ∃ tr : List AttemptRec,
        retryAux env ip rem idx prompt last = (.done false a.code a.output, tr) ∧
        tr.length = rem ∧ tr.getLast? = some a ∧ a.outcome = .failure := by
  intro rem
  induction rem with
  | zero =>
    intro idx prompt last h1
    exact absurd h1 (by omega)
  | succ rem ih =>
    intro idx prompt last _ hfail
    obtain ⟨reply, code2, hchat, hcode, hfix, hcls⟩ :=
      hfail idx (le_refl _) (by omega) prompt
    have herr : has_error (execute_code_capture_output env.pyexec code2) = true :=
      (has_error_iff_failure _).mpr hcls
    by_cases hrem : rem = 0
    · subst hrem
      refine ⟨⟨code2, execute_code_capture_output env.pyexec code2, .failure⟩,
        [⟨code2, execute_code_capture_output env.pyexec code2, .failure⟩],
        ?_, rfl, rfl, rfl⟩
      simp only [retryAux, hchat, if_neg hcode, hfix, herr]
      simp
    · obtain ⟨a, tr, heq, hlen, hlast, hout⟩ :=
        ih (idx + 1)
          (retry_prompt code2 (execute_code_capture_output env.pyexec code2))
          (some (code2, execute_code_capture_output env.pyexec code2))
          (by omega)
          (fun k h1 h2 => hfail k (by omega) (by omega))
      refine ⟨a,
        ⟨code2, execute_code_capture_output env.pyexec code2, .failure⟩ :: tr,
        ?_, by simp [hlen], ?_, hout⟩
      · simp only [retryAux, hchat, if_neg hcode, hfix, herr]
        simp only [heq]
        simp
      · rcases tr with _ | ⟨x, xs⟩
        · exact absurd hlen.symm hrem
        · rw [List.getLast?_cons_cons]
          exact hlast

/-- C1: when every attempt's reply yields code whose execution output
classifies as Failure, the loop makes exactly `max_retries` attempts, never
more, and returns `success = false` with the last attempt's code and
output. -/
theorem loop_exhausts_on_all_failures (env : RetryEnv) (initial_prompt : String)
    (max_retries : Nat) (hpos : 1 ≤ max_retries)
    (hfail : ∀ k, k < max_retries → attemptFails env k) :
    ∃ a : AttemptRec, ∃ tr : List AttemptRec,
      execute_with_retry env initial_prompt max_retries
        = (.done false a.code a.output, tr) ∧
      tr.length = max_retries ∧ tr.getLast? = some a ∧ a.outcome = .failure :=
  retryAux_all_fail env initial_prompt max_retries 0 initial_prompt none hpos
    (fun k _ h2 => hfail k (by omega))

/-- C1 witness: three consecutive replies each producing a runtime fault
with `max_retries = 3`. -/
theorem loop_exhausts_witness :
    ∃ a : AttemptRec, ∃ tr : List AttemptRec,
      execute_with_retry demoEnv "clean this file" 3
        = (.done false a.code a.output, tr) ∧
      tr.length = 3 ∧ tr.getLast? = some a ∧ a.outcome = .failure :=
  loop_exhausts_on_all_failures demoEnv "clean this file" 3 (by decide)
    (fun _ _ => fun _ =>
      ⟨"```python\nx = 1/0\n```", "x = 1/0", rfl, by decide, by decide, by decide⟩)

/-! ## Generation client (`ollama_client.py`, `OllamaClient.chat`)

The network POST is an oracle mapping the message list sent in the payload
to the transport's outcome.  The client state keeps the fields `chat`
reads or writes; the sampling parameters only pass through to the payload
and carry no control flow, so they are absorbed into the oracle. -/

/-- One conversation turn. -/
structure Msg where
  role : String
  content : String
deriving DecidableEq, Repr

/-- The mutable client state `chat` touches. -/
structure ClientState where
  conversation_history : List Msg
  model_name : Option String
deriving DecidableEq, Repr

/-- What `requests.post(f"{base_url}/api/chat", ...)` does for a given
message list: a parsed reply, or one of the three failure modes
`OllamaClient.chat` catches and re-raises. -/
inductive NetResult where
  | ok (content : String)
  | connError
  | timeout
  | httpError (status : Nat)

/-- The exceptions `chat` can raise, by source line: ValueError (model not
set, line 59, or 404, line 111), ConnectionError (line 101), TimeoutError
(line 106), RuntimeError (line 116). -/
inductive ChatError where
  | valueError (msg : String)
  | connectionError (msg : String)
  | timeoutError (msg : String)
  | runtimeError (msg : String)
deriving DecidableEq, Repr

/-- `OllamaClient.chat` (`ollama_client.py` lines 48–116): reject when no
model is set; append the user message to the history; post; on success
append the assistant reply and return it; on each failure re-raise a typed
error, leaving the history as it stands (user message already appended). -/
def OllamaClient.chat (net : List Msg → NetResult) (st : ClientState)
    (user_message : String) : Except ChatError String × ClientState :=
  match st.model_name with
  | none => (.error (.valueError "Model not set. Call set_model() first."), st)
  | some name =>
    let hist2 := st.conversation_history ++ [⟨"user", user_message⟩]
    let st2 : ClientState := { st with conversation_history := hist2 }
    match net hist2 with
    | .ok content =>
      (.ok content,
       { st2 with conversation_history := hist2 ++ [⟨"assistant", content⟩] })
    | .connError =>
      (.error (.connectionError
        "Cannot connect to Ollama. Make sure Ollama is running:\nRun: ollama serve"), st2)
    | .timeout =>
      (.error (.timeoutError
        "Ollama request timed out. The model might be too slow or stuck."), st2)
    | .httpError status =>
      if status = 404 then
        (.error (.valueError
          ("Model '" ++ name ++ "' not found.\nRun: ollama pull " ++ name)), st2)
      else
        (.error (.runtimeError "Ollama API error"), st2)

/-- C10: with a model set, the user message is appended to the
conversation history before the network call, so every failing call
(connection error, timeout, or HTTP error) propagates its exception with
the history already extended by the unanswered user message — nothing
restores the pre-call history. -/
theorem chat_history_extended_on_error (net : List Msg → NetResult)
    (st : ClientState) (name user_message : String)
    (hmodel : st.model_name = some name)
    (hfail : ∀ content,
      net (st.conversation_history ++ [⟨"user", user_message⟩]) ≠ .ok content) :
    ∃ e : ChatError,
      OllamaClient.chat net st user_message =
        (.error e,
         { st with conversation_history :=
            st.conversation_history ++ [⟨"user", user_message⟩] }) := by
  rw [OllamaClient.chat, hmodel]
  cases hnet : net (st.conversation_history ++ [⟨"user", user_message⟩]) with
  | ok content => exact absurd hnet (hfail content)
  | connError =>
    dsimp only
    rw [hnet]
    exact ⟨_, rfl⟩
  | timeout =>
    dsimp only
    rw [hnet]
    exact ⟨_, rfl⟩
  | httpError status =>
    dsimp only
    rw [hnet]
    dsimp only
    by_cases h404 : status = 404
    · rw [if_pos h404]
      exact ⟨_, rfl⟩
    · rw [if_neg h404]
      exact ⟨_, rfl⟩

/-- C10 witness: a timing-out network call on a configured client. -/
theorem chat_history_extended_witness :
    ∃ e : ChatError,
      OllamaClient.chat (fun _ => .timeout)
          ⟨[⟨"system", "You are a helpful assistant."⟩], some "llama3.2:3b"⟩ "hi" =
        (.error e,
         ⟨[⟨"system", "You are a helpful assistant."⟩, ⟨"user", "hi"⟩],
          some "llama3.2:3b"⟩) :=
  chat_history_extended_on_error (fun _ => .timeout)
    ⟨[⟨"system", "You are a helpful assistant."⟩], some "llama3.2:3b"⟩
    "llama3.2:3b" "hi" rfl (fun _ h => by simp at h)

end Pipeline
